import Mathlib

/-!
# fixup-env — verification of the schema normalization and validation engine

This file gives a shallow embedding, in Lean 4, of the core engine of the
`fixup-env` command-line tool: the canonical key-definition model
(`src/schema/types.ts`), the two schema front-ends (`src/schema/loadSchema.ts`:
`parseZodType`, `parseJsonKey`), the env-file merge (`src/env/parseEnv.ts`:
`parseEnvFiles`), the per-value type validator and pattern check
(`validateEnvValue`, `validatePattern`), the validation orchestrator
(`src/env/validate.ts`: `validateEnv`), and the JSON-view secret redaction
(`src/output/formatJson.ts`: `redactSecrets`).

Host-platform primitives that the TypeScript code calls but that are not part
of the repository (JavaScript `Number()` parsing, `new URL()`, the email
regular expression test, and the `RegExp` engine) are modelled by small
executable Lean functions, marked as such in their doc comments.  The theorems
below do not depend on the fine points of those models: they concern the
branching structure of the repository's own code around them.

JavaScript objects are modelled as association lists (`List (String × V)`),
which preserves `Object.entries`/`Object.keys` iteration order; an object's
keys are pairwise distinct, which appears as a `Nodup`/`count` hypothesis
where a theorem needs it.
-/

namespace FixupEnv

/-- A JSON value, used for schema `default`/`example` values (which may be a
string, number or boolean in the TypeScript source) and for the objects fed to
the JSON secret redactor.  JavaScript numbers are modelled as rationals. -/
inductive JValue where
  | null : JValue
  | bool (b : Bool) : JValue
  | num (q : ℚ) : JValue
  | str (s : String) : JValue
  | arr (items : List JValue) : JValue
  | obj (fields : List (String × JValue)) : JValue

/-- Structure `SchemaKey` from `src/schema/types.ts`: the canonical internal
representation of one schema entry, unifying the Zod and JSON front-ends.
Optional TypeScript fields (`description?`, `pattern?`, …) become `Option`;
`deprecated?: boolean` is modelled as a `Bool` defaulting to `false`, which is
extensionally faithful because the source only ever tests its truthiness. -/
structure SchemaKey where
  name : String
  type : String
  description : Option String := none
  default : Option JValue := none
  «example» : Option JValue := none
  enum : Option (List String) := none
  pattern : Option String := none
  required : Bool
  secret : Bool
  deprecated : Bool := false
  replacedBy : Option String := none
  min : Option ℚ := none
  max : Option ℚ := none

/-- Structure `Schema` from `src/schema/types.ts`: keys (a `Record<string, SchemaKey>`,
modelled as an association list in insertion order) plus provenance. -/
structure Schema where
  keys : List (String × SchemaKey)
  source : String
  path : String

/-- Structure `ValidationIssue` from `src/schema/types.ts`.  The `type` field is one of
`"missing" | "type" | "unknown" | "deprecated" | "pattern"`. -/
structure ValidationIssue where
  key : String
  type : String
  message : String
  replacedBy : Option String := none
  deriving DecidableEq

/-- The `stats` record of a `ValidationResult`. -/
structure ValidationStats where
  checked : Nat
  missing : Nat
  deprecated : Nat
  unknown : Nat
  deriving DecidableEq

/-- Structure `ValidationResult` from `src/schema/types.ts`. -/
structure ValidationResult where
  ok : Bool
  errors : List ValidationIssue
  warnings : List ValidationIssue
  files : List String
  stats : ValidationStats
  deriving DecidableEq

/-- The `{ valid: boolean; error?: string }` result shape returned by
`validateEnvValue` and `validatePattern` in `src/env/parseEnv.ts`. -/
structure ValidationOutcome where
  valid : Bool
  error : Option String := none
  deriving DecidableEq

/-- Lookup in an association list modelling a JavaScript object:
`m[k]`, yielding the first (hence, for duplicate-free keys, the only)
binding. -/
def lookupAL {V : Type} (m : List (String × V)) (k : String) : Option V :=
  (m.find? (fun p => p.1 = k)).map (·.2)

/-- Lookup `schema.keys[keyName]` as used throughout `validate.ts` and
`formatJson.ts`. -/
def lookupKey (schema : Schema) (k : String) : Option SchemaKey :=
  lookupAL schema.keys k

end FixupEnv

namespace FixupEnv

/-! ## A model of the host `RegExp` engine

`validatePattern` in `src/env/parseEnv.ts` compiles `new RegExp(pattern)`
inside a `try`/`catch` and then calls `regex.test(value)`.  The `RegExp`
engine itself is a host builtin, modelled here by a small executable regular
expression language: `compileRegex` parses a pattern (returning `none` where
the host constructor would throw a `SyntaxError`, e.g. on an unbalanced
parenthesis or a dangling quantifier), and `regexTest` implements
`RegExp.prototype.test`'s unanchored-search semantics via Brzozowski
derivatives, with `^`/`$` anchors recognised at the ends of the pattern.
The supported subset covers literals, `\\`-escapes, `.`, grouping,
alternation and the `*`/`+`/`?` quantifiers. -/

/-- Regular expressions, as produced by the model pattern compiler. -/
inductive RE where
  | fail : RE
  | eps : RE
  | char (c : Char) : RE
  | any : RE
  | seq (r1 r2 : RE) : RE
  | alt (r1 r2 : RE) : RE
  | star (r : RE) : RE
  deriving DecidableEq

/-- Does the regular expression accept the empty string? -/
def RE.nullable : RE → Bool
  | .fail => false
  | .eps => true
  | .char _ => false
  | .any => false
  | .seq r1 r2 => r1.nullable && r2.nullable
  | .alt r1 r2 => r1.nullable || r2.nullable
  | .star _ => true

/-- Brzozowski derivative of a regular expression by one character. -/
def RE.deriv : RE → Char → RE
  | .fail, _ => .fail
  | .eps, _ => .fail
  | .char d, c => if d = c then .eps else .fail
  | .any, _ => .eps
  | .seq r1 r2, c =>
      if r1.nullable then .alt (.seq (r1.deriv c) r2) (r2.deriv c)
      else .seq (r1.deriv c) r2
  | .alt r1 r2, c => .alt (r1.deriv c) (r2.deriv c)
  | .star r, c => .seq (r.deriv c) (.star r)

/-- Whole-string match via iterated derivatives. -/
def RE.matchesFull (r : RE) (s : String) : Bool :=
  (s.toList.foldl RE.deriv r).nullable

mutual

/-- Parse an alternation (`seq ('|' seq)*`).  The `fuel` argument bounds the
recursion depth; `compileRegex` supplies more than enough of it. -/
def parseAltRE : Nat → List Char → Option (RE × List Char)
  | 0, _ => none
  | fuel + 1, cs => do
      let (r1, rest) ← parseSeqRE fuel cs
      match rest with
      | '|' :: rest2 => do
          let (r2, rest3) ← parseAltRE fuel rest2
          pure (RE.alt r1 r2, rest3)
      | _ => pure (r1, rest)

/-- Parse a (possibly empty) concatenation, stopping at `)` or `|`. -/
def parseSeqRE : Nat → List Char → Option (RE × List Char)
  | 0, _ => none
  | fuel + 1, cs =>
      match cs with
      | [] => pure (RE.eps, [])
      | ')' :: _ => pure (RE.eps, cs)
      | '|' :: _ => pure (RE.eps, cs)
      | _ => do
          let (r1, rest) ← parseFactorRE fuel cs
          let (r2, rest2) ← parseSeqRE fuel rest
          pure (RE.seq r1 r2, rest2)

/-- Parse an atom followed by at most one postfix quantifier. -/
def parseFactorRE : Nat → List Char → Option (RE × List Char)
  | 0, _ => none
  | fuel + 1, cs => do
      let (r, rest) ← parseAtomRE fuel cs
      match rest with
      | '*' :: rest2 => pure (RE.star r, rest2)
      | '+' :: rest2 => pure (RE.seq r (RE.star r), rest2)
      | '?' :: rest2 => pure (RE.alt r RE.eps, rest2)
      | _ => pure (r, rest)

/-- Parse one atom: a group, `.`, an escaped character, or a literal.  A bare
quantifier, an unbalanced `(`, or an unsupported construct yields `none`
(modelling the host `SyntaxError`). -/
def parseAtomRE : Nat → List Char → Option (RE × List Char)
  | 0, _ => none
  | fuel + 1, cs =>
      match cs with
      | [] => none
      | '(' :: rest => do
          let (r, rest2) ← parseAltRE fuel rest
          match rest2 with
          | ')' :: rest3 => pure (r, rest3)
          | _ => none
      | '.' :: rest => pure (RE.any, rest)
      | '\\' :: c :: rest => pure (RE.char c, rest)
      | '\\' :: [] => none
      | c :: rest =>
          if c ∈ ['(', ')', '|', '*', '+', '?', '[', '^', '$'] then none
          else pure (RE.char c, rest)

end

/-- Model of `new RegExp(pattern)`: `none` where the host constructor throws a
`SyntaxError`.  A leading `^` and a trailing `$` are read as anchors; for the
unanchored ends the compiled expression is padded with `.*`, so that a whole-
string match of the result coincides with `RegExp.prototype.test`'s
search-anywhere semantics. -/
def compileRegex (pattern : String) : Option RE :=
  let cs0 := pattern.toList
  let startAnchored := cs0.head? = some '^'
  let cs1 := if startAnchored then cs0.tail else cs0
  let endAnchored := cs1.getLast? = some '$'
  let cs2 := if endAnchored then cs1.dropLast else cs1
  match parseAltRE (8 * cs2.length + 8) cs2 with
  | some (r, []) =>
      some (RE.seq (if startAnchored then RE.eps else RE.star RE.any)
        (RE.seq r (if endAnchored then RE.eps else RE.star RE.any)))
  | _ => none

/-- Model of `regex.test(value)` for a compiled pattern. -/
def regexTest (r : RE) (value : String) : Bool :=
  r.matchesFull value

/-! ## Models of the remaining host builtins used by `validateEnvValue` -/

/-- Digit run to a natural number. -/
def digitsToNat (ds : List Char) : Nat :=
  ds.foldl (fun acc c => acc * 10 + (c.toNat - '0'.toNat)) 0

/-- Model of the host `Number(value)` conversion on the plain decimal numerals
relevant to env values: an optional sign, an integer part, an optional
fractional part.  `none` models `NaN`. -/
def jsNumber (value : String) : Option ℚ :=
  let cs := value.toList
  let signed : ℚ × List Char :=
    match cs with
    | '-' :: rest => (-1, rest)
    | '+' :: rest => (1, rest)
    | _ => (1, cs)
  let intPart := signed.2.takeWhile Char.isDigit
  let rest1 := signed.2.drop intPart.length
  match rest1 with
  | [] =>
      if intPart.isEmpty then none
      else some (signed.1 * (digitsToNat intPart : ℚ))
  | '.' :: fracRest =>
      let fracPart := fracRest.takeWhile Char.isDigit
      let rest2 := fracRest.drop fracPart.length
      if rest2.isEmpty && !(intPart.isEmpty && fracPart.isEmpty) then
        some (signed.1 *
          ((digitsToNat intPart : ℚ) + (digitsToNat fracPart : ℚ) / ((10 : ℚ) ^ fracPart.length)))
      else none
  | _ => none

/-- `Number.isInteger` on the rational model of a JavaScript number. -/
def ratIsInteger (q : ℚ) : Bool :=
  q.den = 1

/-- Model of `new URL(value)` succeeding: the value starts with a scheme
(letter followed by letters, digits, `+`, `-` or `.`) and a colon, which is
what the WHATWG URL constructor requires of an absolute URL. -/
def jsValidURL (value : String) : Bool :=
  let cs := value.toList
  let scheme := cs.takeWhile (fun c => c ≠ ':')
  let rest := cs.drop scheme.length
  match scheme, rest with
  | c :: cs', ':' :: _ =>
      c.isAlpha && cs'.all (fun d => d.isAlphanum || d = '+' || d = '-' || d = '.')
  | _, _ => false

/-- Split a character list at every occurrence of `c` (the list analogue of
`String.split`), always producing at least one segment. -/
def splitOnChar (c : Char) : List Char → List (List Char)
  | [] => [[]]
  | d :: rest =>
      if d = c then [] :: splitOnChar c rest
      else
        match splitOnChar c rest with
        | [] => [[d]]
        | seg :: segs => (d :: seg) :: segs

/-- Model of the email test `/^[^\s@]+@[^\s@]+\.[^\s@]+$/` from
`validateEnvValue`: no whitespace anywhere, exactly one `@` with a non-empty
local part, and a domain containing an interior dot. -/
def jsEmailTest (value : String) : Bool :=
  match splitOnChar '@' value.toList with
  | [localPart, domain] =>
      !localPart.isEmpty && !domain.isEmpty &&
      (localPart.all (fun c => !c.isWhitespace)) &&
      (domain.all (fun c => !c.isWhitespace)) &&
      (let segs := splitOnChar '.' domain
       segs.length ≥ 2 && segs.head? ≠ some [] && segs.getLast? ≠ some [])
  | _ => false

/-- The min/max bound checks shared by the `number`/`int` branch of
`validateEnvValue` (applied in source order: minimum first, then maximum). -/
def boundsCheck (num : ℚ) (minO maxO : Option ℚ) : ValidationOutcome :=
  match minO, maxO with
  | some m, some mx =>
      if num < m then
        { valid := false, error := some ("Value " ++ toString num ++ " is below minimum " ++ toString m) }
      else if num > mx then
        { valid := false, error := some ("Value " ++ toString num ++ " is above maximum " ++ toString mx) }
      else { valid := true }
  | some m, none =>
      if num < m then
        { valid := false, error := some ("Value " ++ toString num ++ " is below minimum " ++ toString m) }
      else { valid := true }
  | none, some mx =>
      if num > mx then
        { valid := false, error := some ("Value " ++ toString num ++ " is above maximum " ++ toString mx) }
      else { valid := true }
  | none, none => { valid := true }

/-- Function `validateEnvValue` from `src/env/parseEnv.ts`: the empty-and-required
check first (any type), then Valid for an empty optional value, then the
dispatch on the declared type string, with a catch-all `default` branch that
accepts.  `!value` in the source is emptiness of the string. -/
def validateEnvValue (value : String) (keyDef : SchemaKey) : ValidationOutcome :=
  if value.isEmpty && keyDef.required then
    { valid := false, error := some "Required key missing" }
  else if value.isEmpty then
    { valid := true }
  else if keyDef.type = "string" then
    { valid := true }
  else if keyDef.type = "number" || keyDef.type = "int" then
    match jsNumber value with
    | none => { valid := false, error := some ("Expected number, got \"" ++ value ++ "\"") }
    | some num =>
        if keyDef.type = "int" && !ratIsInteger num then
          { valid := false, error := some ("Expected integer, got \"" ++ value ++ "\"") }
        else
          boundsCheck num keyDef.min keyDef.max
  else if keyDef.type = "boolean" then
    if !(["true", "false", "1", "0", "yes", "no", "on", "off"].contains
        (String.mk (value.toList.map Char.toLower))) then
      { valid := false, error := some ("Expected boolean, got \"" ++ value ++ "\"") }
    else { valid := true }
  else if keyDef.type = "url" then
    if jsValidURL value then { valid := true }
    else { valid := false, error := some ("Expected valid URL, got \"" ++ value ++ "\"") }
  else if keyDef.type = "email" then
    if !jsEmailTest value then
      { valid := false, error := some ("Expected valid email, got \"" ++ value ++ "\"") }
    else { valid := true }
  else if keyDef.type = "enum" then
    match keyDef.enum with
    | some vs =>
        if !(vs.contains value) then
          { valid := false,
            error := some ("Expected one of [" ++ String.intercalate ", " vs ++ "], got \"" ++ value ++ "\"") }
        else { valid := true }
    | none =>
        { valid := false, error := some ("Expected one of [undefined], got \"" ++ value ++ "\"") }
  else if keyDef.type = "port" then
    match jsNumber value with
    | none => { valid := false, error := some ("Expected port number (1-65535), got \"" ++ value ++ "\"") }
    | some port =>
        if !ratIsInteger port || port < 1 || port > 65535 then
          { valid := false, error := some ("Expected port number (1-65535), got \"" ++ value ++ "\"") }
        else { valid := true }
  else
    { valid := true }

/-- Function `validatePattern` from `src/env/parseEnv.ts`: compile the pattern inside
`try`/`catch`; a compilation failure is reported as an `Invalid regex
pattern: …` result (the `catch` branch), a non-matching value as a `Value does
not match pattern: …` result; never an exception. -/
def validatePattern (value : String) (pattern : String) : ValidationOutcome :=
  match compileRegex pattern with
  | none => { valid := false, error := some ("Invalid regex pattern: " ++ pattern) }
  | some regex =>
      if !(regexTest regex value) then
        { valid := false, error := some ("Value does not match pattern: " ++ pattern) }
      else
        { valid := true }

/-! ## Schema normalizer: the fluent (Zod) front-end

`parseZodType` in `src/schema/loadSchema.ts` walks a Zod validator node.
Following the spec's design note the composable validator tree is embedded as
a closed tagged variant: primitive node kinds (`ZodString`, `ZodNumber`,
`ZodBoolean`, `ZodEnum`) and the two wrapper kinds (`ZodOptional`,
`ZodDefault`).  Every node carries its `description` and the side-channel
`_def.meta.secret` marker; a `ZodDefault` node's `_def.defaultValue()`
value-provider is embedded as the value it provides. -/

/-- One entry of a Zod node's `_def.checks` array. -/
inductive ZodCheck where
  | url : ZodCheck
  | email : ZodCheck
  | regex (source : String) : ZodCheck
  | int : ZodCheck
  | min (value : ℚ) : ZodCheck
  | max (value : ℚ) : ZodCheck
  | other (kind : String) : ZodCheck

/-- A Zod validator node. -/
inductive ZodType where
  | zstring (checks : List ZodCheck) (descr : Option String) (metaSecret : Bool) : ZodType
  | znumber (checks : List ZodCheck) (descr : Option String) (metaSecret : Bool) : ZodType
  | zboolean (descr : Option String) (metaSecret : Bool) : ZodType
  | zenum (values : List String) (descr : Option String) (metaSecret : Bool) : ZodType
  | zoptional (innerType : ZodType) (descr : Option String) (metaSecret : Bool) : ZodType
  | zdefault (defaultValue : JValue) (innerType : ZodType) (descr : Option String)
      (metaSecret : Bool) : ZodType

/-- The test `check.kind === 'url'`. -/
def ZodCheck.isUrl : ZodCheck → Bool
  | .url => true
  | _ => false

/-- The test `check.kind === 'email'`. -/
def ZodCheck.isEmail : ZodCheck → Bool
  | .email => true
  | _ => false

/-- The test `check.kind === 'int'`. -/
def ZodCheck.isInt : ZodCheck → Bool
  | .int => true
  | _ => false

/-- The pattern source of a `regex` check, for `find(c => c.kind === 'regex')`. -/
def ZodCheck.regexSource : ZodCheck → Option String
  | .regex s => some s
  | _ => none

/-- The bound of a `min` check, for `find(c => c.kind === 'min')`. -/
def ZodCheck.minValue : ZodCheck → Option ℚ
  | .min v => some v
  | _ => none

/-- The bound of a `max` check, for `find(c => c.kind === 'max')`. -/
def ZodCheck.maxValue : ZodCheck → Option ℚ
  | .max v => some v
  | _ => none

/-- Function `parseZodType` from `src/schema/loadSchema.ts`.  The source initialises a
local key `{type:'string', required:true, secret:false}`, copies the node's
`description` and (when `_def.defaultValue` is defined) its default onto it —
but on a `ZodOptional`/`ZodDefault` wrapper it then *returns the recursive
call on the inner node*, which builds a fresh key, so the wrapper-stage
assignments (`required = false`, the captured default, the wrapper's
description) are discarded; the embedding reproduces that early return.  On a
primitive node the secret marker is read and the type classified: `url`,
`email` and `regex` refinements inside the string bucket (an `email` check
overriding a `url` one, since the source assigns sequentially), `int` and the
exact 1/65535-bounds `port` promotion inside the number bucket, and the
literal list for enums. -/
def parseZodType (keyName : String) (zodType : ZodType) : SchemaKey :=
  match zodType with
  | .zoptional innerType _ _ => parseZodType keyName innerType
  | .zdefault _ innerType _ _ => parseZodType keyName innerType
  | .zstring checks descr metaSecret =>
      let type1 := if checks.any ZodCheck.isUrl then "url" else "string"
      let type2 := if checks.any ZodCheck.isEmail then "email" else type1
      { name := keyName, type := type2, required := true, secret := metaSecret,
        description := descr, pattern := checks.findSome? ZodCheck.regexSource }
  | .znumber checks descr metaSecret =>
      let type1 := if checks.any ZodCheck.isInt then "int" else "number"
      let minCheck := checks.findSome? ZodCheck.minValue
      let maxCheck := checks.findSome? ZodCheck.maxValue
      let type2 := if minCheck = some 1 && maxCheck = some 65535 then "port" else type1
      { name := keyName, type := type2, required := true, secret := metaSecret,
        description := descr, min := minCheck, max := maxCheck }
  | .zboolean descr metaSecret =>
      { name := keyName, type := "boolean", required := true, secret := metaSecret,
        description := descr }
  | .zenum values descr metaSecret =>
      { name := keyName, type := "enum", required := true, secret := metaSecret,
        description := descr, enum := some values }

/-! ## Schema normalizer: the declarative JSON front-end -/

/-- One entry under the `properties` container of a declarative JSON schema,
with the fields `parseJsonKey` accesses, each `Option` for absence.  The
boolean-ish and string-valued fields are modelled at their documented types;
JavaScript truthiness on them is `some true`, respectively a present
non-empty string. -/
structure JsonKeyDef where
  type : Option String := none
  description : Option String := none
  required : Option Bool := none
  optional : Option Bool := none
  default : Option JValue := none
  «example» : Option JValue := none
  enum : Option (List String) := none
  pattern : Option String := none
  deprecated : Option Bool := none
  replacedBy : Option String := none
  secret : Option Bool := none
  min : Option ℚ := none
  max : Option ℚ := none

/-- JavaScript truthiness of an absent-or-boolean field. -/
def truthyB : Option Bool → Bool
  | some b => b
  | none => false

/-- Copying `if (field) key.field = field` for a string-valued field: copied when
present and non-empty (the empty string is falsy). -/
def truthyS : Option String → Option String
  | some s => if s.isEmpty then none else some s
  | none => none

/-- Function `parseJsonKey` from `src/schema/loadSchema.ts`: a near-verbatim copy of
the entry.  `type` falls back to `"string"` when absent or falsy;
`required` is computed as `!keyDef.optional` — the entry's own `required`
field is never read; `secret` is `keyDef.secret || false`; `default`,
`example`, `min` and `max` are copied on a `!== undefined` test, the
remaining fields on a truthiness test. -/
def parseJsonKey (keyName : String) (keyDef : JsonKeyDef) : SchemaKey :=
  { name := keyName
    type := match keyDef.type with
      | some t => if t.isEmpty then "string" else t
      | none => "string"
    required := !(truthyB keyDef.optional)
    secret := truthyB keyDef.secret
    description := truthyS keyDef.description
    default := keyDef.default
    «example» := keyDef.«example»
    enum := keyDef.enum
    pattern := truthyS keyDef.pattern
    deprecated := truthyB keyDef.deprecated
    replacedBy := truthyS keyDef.replacedBy
    min := keyDef.min
    max := keyDef.max }

/-! ## Value parser: `parseEnvFiles` from `src/env/parseEnv.ts`

The filesystem and the `dotenv` line parser are host collaborators: an input
file is embedded as its resolved path, its existence, and its
`dotenv`-parsed content (an object, hence an association list with distinct
keys).  The repository's own logic — the per-file records and the
`Object.assign(merged, content)` overlay, later files overriding earlier
ones key by key — is reproduced below.  `objAssignPair` is the effect of
assigning one key: an existing binding is updated in place, a new one is
appended, exactly the JavaScript object update order. -/

/-- An input env file as the host filesystem and `dotenv` deliver it. -/
structure FsFile where
  path : String
  «exists» : Bool
  content : List (String × String)

/-- The `EnvFile` record pushed onto `files`. -/
structure EnvFile where
  path : String
  «exists» : Bool
  content : List (String × String)
  deriving DecidableEq

/-- The `ParsedEnv` result of `parseEnvFiles`. -/
structure ParsedEnv where
  files : List EnvFile
  merged : List (String × String)
  deriving DecidableEq

/-- Assign one key/value pair into a JavaScript-object association list. -/
def objAssignPair (m : List (String × String)) (kv : String × String) :
    List (String × String) :=
  if m.any (fun p => p.1 = kv.1) then
    m.map (fun p => if p.1 = kv.1 then (p.1, kv.2) else p)
  else
    m ++ [kv]

/-- Model of `Object.assign(target, source)` on string records. -/
def objAssign (target source : List (String × String)) : List (String × String) :=
  source.foldl objAssignPair target

/-- Function `parseEnvFiles`: for each path in order, a missing file contributes
`content = {}`; each file's record is pushed and its content overlaid onto
`merged`. -/
def parseEnvFiles (inputs : List FsFile) : ParsedEnv :=
  let step := inputs.foldl
    (fun (acc : List EnvFile × List (String × String)) f =>
      let content := if f.«exists» then f.content else []
      (acc.1 ++ [{ path := f.path, «exists» := f.«exists», content := content }],
        objAssign acc.2 content))
    ([], [])
  { files := step.1, merged := step.2 }

/-! ## Validation orchestrator: `validateEnv` from `src/env/validate.ts` -/

/-- The first loop of `validateEnv`: for every schema entry declared
`required` whose key is absent from the mapping, a `missing` error, in schema
declaration order. -/
def missingErrors (schema : Schema) (env : List (String × String)) :
    List ValidationIssue :=
  schema.keys.filterMap (fun p =>
    if p.2.required && !(env.any (fun kv => kv.1 = p.1)) then
      some { key := p.1, type := "missing", message := "Required key missing" }
    else
      none)

/-- The body of `validateEnv`'s second loop for one mapping entry
`(keyName, value)`: the errors it pushes (first component) and the warnings
it pushes (second component).  A declared key runs the type validator, then —
when a (truthy, hence non-empty) `pattern` is declared — the pattern check,
then the deprecation warning; an undeclared key yields one `unknown` issue,
an error under `strict` and a warning otherwise. -/
def checkEntry (schema : Schema) (strict : Bool) (keyName value : String) :
    List ValidationIssue × List ValidationIssue :=
  match lookupKey schema keyName with
  | some keyDef =>
      let typeValidation := validateEnvValue value keyDef
      let typeErrors :=
        if !typeValidation.valid then
          [{ key := keyName, type := "type", message := typeValidation.error.getD "" }]
        else []
      let patternErrors :=
        match keyDef.pattern with
        | some p =>
            if p.isEmpty then []
            else
              let patternValidation := validatePattern value p
              if !patternValidation.valid then
                [{ key := keyName, type := "pattern",
                   message := patternValidation.error.getD "" }]
              else []
        | none => []
      let deprecatedWarnings :=
        if keyDef.deprecated then
          [{ key := keyName, type := "deprecated",
             message := match keyDef.replacedBy with
               | some r => if r.isEmpty then "This key is deprecated"
                           else "Deprecated. Use " ++ r ++ " instead"
               | none => "This key is deprecated",
             replacedBy := keyDef.replacedBy }]
        else []
      (typeErrors ++ patternErrors, deprecatedWarnings)
  | none =>
      let issue : ValidationIssue :=
        { key := keyName, type := "unknown", message := "Unknown key not defined in schema" }
      if strict then ([issue], []) else ([], [issue])

/-- The options object of `validateEnv`. -/
structure ValidateOptions where
  strict : Bool := false
  failOnWarn : Bool := false
  deriving DecidableEq

/-- Function `validateEnv` from `src/env/validate.ts`: the missing-key loop seeds the
error list, the per-present-key loop appends errors and warnings in the
mapping's iteration order, the stats count the mapping's keys, the `missing`
errors, the `deprecated` warnings and the `unknown` *warnings* (the filter
runs over `warnings` only), and
`ok = !(errors.length > 0 || (failOnWarn && warnings.length > 0))`. -/
def validateEnv (env : List (String × String)) (schema : Schema)
    (options : ValidateOptions) : ValidationResult :=
  let seeded : List ValidationIssue × List ValidationIssue := (missingErrors schema env, [])
  let collected := env.foldl
    (fun (acc : List ValidationIssue × List ValidationIssue) kv =>
      let pushed := checkEntry schema options.strict kv.1 kv.2
      (acc.1 ++ pushed.1, acc.2 ++ pushed.2))
    seeded
  let errors := collected.1
  let warnings := collected.2
  let stats : ValidationStats :=
    { checked := env.length
      missing := (errors.filter (fun e => e.type = "missing")).length
      deprecated := (warnings.filter (fun w => w.type = "deprecated")).length
      unknown := (warnings.filter (fun w => w.type = "unknown")).length }
  let hasErrors := !errors.isEmpty
  let hasWarnings := !warnings.isEmpty
  let shouldFail := hasErrors || (options.failOnWarn && hasWarnings)
  { ok := !shouldFail
    errors := errors
    warnings := warnings
    files := env.map (fun kv => kv.1)
    stats := stats }

/-! ## Secret redaction -/

mutual

/-- Function `redactSecrets` from `src/output/formatJson.ts`, the redactor applied to
derived JSON views of the environment: non-objects pass through, arrays
recurse elementwise, and in an object a key whose schema definition is
`secret` with a string value becomes the literal `"<redacted>"`; other
object-valued fields recurse, the rest pass through. -/
def redactSecrets (obj : JValue) (schema : Schema) : JValue :=
  match obj with
  | .arr items => .arr (redactSecretsList items schema)
  | .obj fields => .obj (redactSecretsFields fields schema)
  | other => other

/-- The `Array.isArray` branch of `redactSecrets`. -/
def redactSecretsList (items : List JValue) (schema : Schema) : List JValue :=
  match items with
  | [] => []
  | item :: rest => redactSecrets item schema :: redactSecretsList rest schema

/-- The `Object.entries` loop of `redactSecrets`. -/
def redactSecretsFields (fields : List (String × JValue)) (schema : Schema) :
    List (String × JValue) :=
  match fields with
  | [] => []
  | (key, value) :: rest =>
      (key, redactFieldValue key value schema) :: redactSecretsFields rest schema

/-- The per-field body of `redactSecrets`'s `Object.entries` loop:
`keyDef?.secret && typeof value === 'string'` yields the literal
`"<redacted>"`, otherwise an object-typed value recurses and anything else is
copied unchanged. -/
def redactFieldValue (key : String) (value : JValue) (schema : Schema) : JValue :=
  match lookupKey schema key, value with
  | some kd, .str s => if kd.secret then JValue.str "<redacted>" else JValue.str s
  | _, .arr items => JValue.arr (redactSecretsList items schema)
  | _, .obj innerFields => JValue.obj (redactSecretsFields innerFields schema)
  | _, v => v

end

/-- Function `redactSecret` from `src/utils/redact.ts`: the *partial* mask used by the
table-view utilities (re-exported by the logger as `redactSecret`), which
keeps the first and last two characters of longer values.  It is not the
redactor of the JSON view. -/
def redactSecret (value : String) : String :=
  if value.isEmpty then value
  else if value.length ≤ 4 then String.mk (List.replicate value.length '•')
  else
    (value.take 2) ++ String.mk (List.replicate (value.length - 4) '•') ++
      (value.drop (value.length - 2))

/-! ## Proof infrastructure -/

/-- Concatenation of the per-element lists produced by `f`, used to describe
the error/warning lists accumulated by `validateEnv`'s per-key loop. -/
def flattenMap {α β : Type} (f : α → List β) : List α → List β
  | [] => []
  | x :: xs => f x ++ flattenMap f xs

/-- The issues attributed to key `k` with kind `t`. -/
def issueAt (k t : String) (i : ValidationIssue) : Bool :=
  decide (i.key = k ∧ i.type = t)

/-- The fixed schema of the spec's concrete scenario 3 (one declared enum key
`NODE_ENV`), used to witness strict-mode and unknown-key behaviour. -/
def scenario3Schema : Schema :=
  { keys := [("NODE_ENV",
      parseZodType "NODE_ENV"
        (ZodType.zenum ["development", "test", "production"] (some "Runtime mode") false))]
    source := "zod"
    path := "env.schema.ts" }

/-- The merged mapping of the spec's concrete scenario 3: the declared key
plus an undeclared `DEBUG`. -/
def scenario3Env : List (String × String) :=
  [("NODE_ENV", "development"), ("DEBUG", "true")]

/-- A schema with a single deprecated optional key, used to witness the
fail-on-warnings behaviour. -/
def deprecationSchema : Schema :=
  { keys := [("OLD_KEY",
      { name := "OLD_KEY", type := "string", required := false, secret := false,
        deprecated := true, replacedBy := some "NEW_KEY" })]
    source := "json"
    path := "env.schema.json" }

/-- The conclusion of claim C4 at a given instance: the undeclared key `k`
receives exactly one `unknown` issue across errors and warnings, sitting in
the errors list under `strict` and in the warnings list otherwise. -/
def UnknownKeyClassified (env : List (String × String)) (schema : Schema)
    (opts : ValidateOptions) (k : String) : Prop :=
  ((validateEnv env schema opts).errors
      ++ (validateEnv env schema opts).warnings).countP (issueAt k "unknown") = 1
  ∧ (validateEnv env schema opts).errors.countP (issueAt k "unknown")
      = (if opts.strict then 1 else 0)
  ∧ (validateEnv env schema opts).warnings.countP (issueAt k "unknown")
      = (if opts.strict then 0 else 1)

/-- The conclusion of claim C10 at a given instance: the required key `k`
present with the empty string receives exactly one `type` error carrying the
message `Required key missing`, no `missing` issue anywhere, and
`stats.missing` counts only other keys. -/
def RequiredEmptyTyped (env : List (String × String)) (schema : Schema)
    (opts : ValidateOptions) (k : String) : Prop :=
  (validateEnv env schema opts).errors.countP
      (fun i => issueAt k "type" i && decide (i.message = "Required key missing")) = 1
  ∧ (validateEnv env schema opts).errors.countP (issueAt k "type") = 1
  ∧ ((validateEnv env schema opts).errors
      ++ (validateEnv env schema opts).warnings).countP (issueAt k "missing") = 0
  ∧ (validateEnv env schema opts).stats.missing
      = (validateEnv env schema opts).errors.countP
          (fun i => decide (i.type = "missing") && decide (i.key ≠ k))

/-- A required string key, for witnessing the empty-value behaviour. -/
def requiredKeyDef : SchemaKey :=
  { name := "API_KEY", type := "string", required := true, secret := false }

/-- A schema declaring only the required string key `API_KEY`. -/
def requiredEmptySchema : Schema :=
  { keys := [("API_KEY", requiredKeyDef)], source := "json", path := "env.schema.json" }

/-- First env file of the repository's own merge test: `.env` with
`NODE_ENV=development` and `PORT=3000`. -/
def envFileA : FsFile :=
  { path := "/proj/.env", «exists» := true,
    content := [("NODE_ENV", "development"), ("PORT", "3000")] }

/-- Second env file of the repository's own merge test: `.env.local` with
`PORT=4000` and `DEBUG=true`. -/
def envFileB : FsFile :=
  { path := "/proj/.env.local", «exists» := true,
    content := [("PORT", "4000"), ("DEBUG", "true")] }

/-- A key declared with a syntactically invalid regular-expression pattern
(an unbalanced parenthesis). -/
def invalidPatternKeyDef : SchemaKey :=
  { name := "API_KEY", type := "string", required := true, secret := false,
    pattern := some "(" }

/-- A schema carrying `invalidPatternKeyDef`. -/
def invalidPatternSchema : Schema :=
  { keys := [("API_KEY", invalidPatternKeyDef)], source := "json",
    path := "env.schema.json" }

/-- An optional string key that also declares the pattern `a`. -/
def optPatternKeyDef : SchemaKey :=
  { name := "OPT_KEY", type := "string", required := false, secret := false,
    pattern := some "a" }

/-- A schema carrying `optPatternKeyDef`. -/
def optPatternSchema : Schema :=
  { keys := [("OPT_KEY", optPatternKeyDef)], source := "json",
    path := "env.schema.json" }

/-- An optional boolean key with no pattern. -/
def optBoolKeyDef : SchemaKey :=
  { name := "DEBUG", type := "boolean", required := false, secret := false }

/-- A schema carrying `optBoolKeyDef`. -/
def optBoolSchema : Schema :=
  { keys := [("DEBUG", optBoolKeyDef)], source := "json", path := "env.schema.json" }

/-- A secret string key, as in the repository's own schema templates. -/
def secretTokenKeyDef : SchemaKey :=
  { name := "SECRET_TOKEN", type := "string", required := true, secret := true }

/-- A schema carrying `secretTokenKeyDef`. -/
def secretSchema : Schema :=
  { keys := [("SECRET_TOKEN", secretTokenKeyDef)], source := "json",
    path := "env.schema.json" }

/-- The fluent node `z.boolean().optional().describe('Debug mode')` of the
repository's own test `should handle optional keys`: an optional wrapper
around a boolean, the description attached to the wrapper node that
`describe` was called on. -/
def zodOptionalBoolNode : ZodType :=
  ZodType.zoptional (ZodType.zboolean none false) (some "Debug mode") false

/-- The fluent node `z.number().int().min(1).max(65535).default(3000)` of the
repository's own templates. -/
def zodDefaultPortNode : ZodType :=
  ZodType.zdefault (JValue.num 3000)
    (ZodType.znumber [ZodCheck.int, ZodCheck.min 1, ZodCheck.max 65535]
      (some "HTTP port") false)
    none false

/-- The schema the repository's test `should handle optional keys` builds:
a required enum `NODE_ENV` and an optional boolean `DEBUG`, both normalized
through `parseZodType`. -/
def zodTestSchema : Schema :=
  { keys := [("NODE_ENV",
      parseZodType "NODE_ENV"
        (ZodType.zenum ["development", "test", "production"] (some "Runtime mode") false)),
      ("DEBUG", parseZodType "DEBUG" zodOptionalBoolNode)]
    source := "zod"
    path := "env.schema.ts" }

/-- The `FEATURE_X` entry of the repository's own JSON schema template
(README and `init`): it marks optionality with `"required": false` and
carries no `optional` flag. -/
def featureXJsonEntry : JsonKeyDef :=
  { type := some "enum", enum := some ["on", "off"],
    description := some "Toggle feature X", required := some false }

end FixupEnv

namespace FixupEnv

/-! ## General lemmas about the orchestrator's accumulation -/

theorem foldl_append_pair {α β : Type} (f g : α → List β) (l : List α) :
    ∀ e0 w0 : List β,
      l.foldl (fun acc x => (acc.1 ++ f x, acc.2 ++ g x)) (e0, w0)
        = (e0 ++ flattenMap f l, w0 ++ flattenMap g l) := by
  induction l with
  | nil => intro e0 w0; simp [flattenMap]
  | cons x xs ih =>
      intro e0 w0
      simp only [List.foldl_cons]
      rw [ih]
      simp [flattenMap]

theorem validateEnv_errors_eq (env : List (String × String)) (schema : Schema)
    (opts : ValidateOptions) :
    (validateEnv env schema opts).errors
      = missingErrors schema env
          ++ flattenMap (fun kv => (checkEntry schema opts.strict kv.1 kv.2).1) env := by
  simp only [validateEnv]
  rw [foldl_append_pair (fun kv => (checkEntry schema opts.strict kv.1 kv.2).1)
    (fun kv => (checkEntry schema opts.strict kv.1 kv.2).2) env]

theorem validateEnv_warnings_eq (env : List (String × String)) (schema : Schema)
    (opts : ValidateOptions) :
    (validateEnv env schema opts).warnings
      = flattenMap (fun kv => (checkEntry schema opts.strict kv.1 kv.2).2) env := by
  simp only [validateEnv]
  rw [foldl_append_pair (fun kv => (checkEntry schema opts.strict kv.1 kv.2).1)
    (fun kv => (checkEntry schema opts.strict kv.1 kv.2).2) env]
  simp

theorem validateEnv_ok_eq (env : List (String × String)) (schema : Schema)
    (opts : ValidateOptions) :
    (validateEnv env schema opts).ok
      = !((!(validateEnv env schema opts).errors.isEmpty)
          || (opts.failOnWarn && !(validateEnv env schema opts).warnings.isEmpty)) := by
  simp only [validateEnv]

theorem validateEnv_stats_eq (env : List (String × String)) (schema : Schema)
    (opts : ValidateOptions) :
    (validateEnv env schema opts).stats
      = { checked := env.length
          missing := ((validateEnv env schema opts).errors.filter
            (fun e => e.type = "missing")).length
          deprecated := ((validateEnv env schema opts).warnings.filter
            (fun w => w.type = "deprecated")).length
          unknown := ((validateEnv env schema opts).warnings.filter
            (fun w => w.type = "unknown")).length } := by
  simp only [validateEnv]

/-- C3 — `ok` is exactly "no errors, and no warnings unless `failOnWarn` is
off": for every mapping, schema and options, `(validateEnv env schema
opts).ok = true` iff the errors list is empty and (the warnings list is empty
or `failOnWarn` is not set); moreover on a one-deprecation run
(`deprecationSchema` with its key present) `ok` is `true` without
`failOnWarn` and `false` with it. -/
theorem validateEnv_ok_iff (env : List (String × String)) (schema : Schema)
    (opts : ValidateOptions) :
    ((validateEnv env schema opts).ok = true ↔
      ((validateEnv env schema opts).errors = []
        ∧ ((validateEnv env schema opts).warnings = [] ∨ opts.failOnWarn = false)))
    ∧ (validateEnv [("OLD_KEY", "x")] deprecationSchema
        { strict := false, failOnWarn := false }).ok = true
    ∧ (validateEnv [("OLD_KEY", "x")] deprecationSchema
        { strict := false, failOnWarn := true }).ok = false
    ∧ (validateEnv [("OLD_KEY", "x")] deprecationSchema
        { strict := false, failOnWarn := true }).errors = []
    ∧ ((validateEnv [("OLD_KEY", "x")] deprecationSchema
        { strict := false, failOnWarn := true }).warnings.map
          (fun w => w.type)) = ["deprecated"] := by
  refine ⟨?_, by decide, by decide, by decide, by decide⟩
  rw [validateEnv_ok_eq]
  cases hf : opts.failOnWarn <;>
    cases he : (validateEnv env schema opts).errors <;>
      cases hw : (validateEnv env schema opts).warnings <;>
        simp

/-! ## Scoping lemmas: which keys and kinds each loop can emit -/

theorem checkEntry_fst_shape (schema : Schema) (strict : Bool) (k v : String) :
    ∀ i ∈ (checkEntry schema strict k v).1,
      i.key = k ∧ (i.type = "type" ∨ i.type = "pattern" ∨ i.type = "unknown") := by
  intro i hi
  unfold checkEntry at hi
  cases hlk : lookupKey schema k with
  | some kd =>
      rw [hlk] at hi
      simp only at hi
      rcases List.mem_append.mp hi with h1 | h2
      · split at h1 <;> simp_all
      · split at h2
        · split at h2
          · simp_all
          · split at h2 <;> simp_all
        · simp_all
  | none =>
      rw [hlk] at hi
      simp only at hi
      split at hi <;> simp_all

theorem checkEntry_snd_shape (schema : Schema) (strict : Bool) (k v : String) :
    ∀ i ∈ (checkEntry schema strict k v).2,
      i.key = k ∧ (i.type = "deprecated" ∨ i.type = "unknown") := by
  intro i hi
  unfold checkEntry at hi
  cases hlk : lookupKey schema k with
  | some kd =>
      rw [hlk] at hi
      simp only at hi
      split at hi <;> simp_all
  | none =>
      rw [hlk] at hi
      simp only at hi
      split at hi <;> simp_all

theorem missingErrors_shape (schema : Schema) (env : List (String × String)) :
    ∀ i ∈ missingErrors schema env,
      i.type = "missing" ∧ env.any (fun kv => kv.1 = i.key) = false := by
  intro i hi
  unfold missingErrors at hi
  obtain ⟨p, _, hp⟩ := List.mem_filterMap.mp hi
  split at hp
  · rename_i hcond
    simp only [Bool.and_eq_true, Bool.not_eq_true'] at hcond
    obtain ⟨-, hnot⟩ := hcond
    cases hp
    exact ⟨rfl, hnot⟩
  · cases hp

/-! ## Counting lemmas -/

theorem countP_flattenMap {α β : Type} (p : β → Bool) (f : α → List β) (l : List α) :
    (flattenMap f l).countP p = (l.map (fun x => (f x).countP p)).sum := by
  induction l with
  | nil => simp [flattenMap]
  | cons x xs ih => simp [flattenMap, List.countP_append, ih]

theorem flattenMap_countP_of_count_zero
    (f : String × String → List ValidationIssue) (p : ValidationIssue → Bool) (k : String)
    (hother : ∀ kv : String × String, kv.1 ≠ k → (f kv).countP p = 0) :
    ∀ env : List (String × String), (env.map Prod.fst).count k = 0 →
      (flattenMap f env).countP p = 0 := by
  intro env
  induction env with
  | nil => intro _; simp [flattenMap]
  | cons kv rest ih =>
      intro hcount
      simp only [List.map_cons, List.count_cons] at hcount
      have hne : kv.1 ≠ k := by
        intro h
        simp [h] at hcount
      have hrest : (rest.map Prod.fst).count k = 0 := by
        omega
      simp [flattenMap, List.countP_append, hother kv hne, ih hrest]

theorem flattenMap_countP_of_count_one
    (f : String × String → List ValidationIssue) (p : ValidationIssue → Bool) (k v : String)
    (hother : ∀ kv : String × String, kv.1 ≠ k → (f kv).countP p = 0) :
    ∀ env : List (String × String), (k, v) ∈ env → (env.map Prod.fst).count k = 1 →
      (flattenMap f env).countP p = (f (k, v)).countP p := by
  intro env
  induction env with
  | nil => intro h; cases h
  | cons kv rest ih =>
      intro hmem hcount
      simp only [List.map_cons, List.count_cons] at hcount
      rcases List.mem_cons.mp hmem with heq | htail
      · subst heq
        simp only [beq_self_eq_true, if_pos] at hcount
        have hrest : (rest.map Prod.fst).count k = 0 := by omega
        simp [flattenMap, List.countP_append,
          flattenMap_countP_of_count_zero f p k hother rest hrest]
      · have hkrest : k ∈ rest.map Prod.fst :=
          List.mem_map.mpr ⟨(k, v), htail, rfl⟩
        have hpos : 0 < (rest.map Prod.fst).count k :=
          List.count_pos_iff.mpr hkrest
        have hne : kv.1 ≠ k := by
          intro h
          simp [h] at hcount
          omega
        have hrest : (rest.map Prod.fst).count k = 1 := by
          by_cases hb : kv.1 == k
          · exact absurd (eq_of_beq hb) hne
          · simp [hb] at hcount; exact hcount
        simp [flattenMap, List.countP_append, hother kv hne, ih htail hrest]

theorem checkEntry_undeclared (schema : Schema) (strict : Bool) (k v : String)
    (h : lookupKey schema k = none) :
    checkEntry schema strict k v
      = if strict then
          ([{ key := k, type := "unknown", message := "Unknown key not defined in schema" }], [])
        else
          ([], [{ key := k, type := "unknown", message := "Unknown key not defined in schema" }]) := by
  unfold checkEntry
  rw [h]

theorem countP_issueAt_zero_of_fst (schema : Schema) (strict : Bool) (k t : String) :
    ∀ kv : String × String, kv.1 ≠ k →
      ((checkEntry schema strict kv.1 kv.2).1).countP (issueAt k t) = 0 := by
  intro kv hne
  refine List.countP_eq_zero.mpr (fun i hi => ?_)
  have hk := (checkEntry_fst_shape schema strict kv.1 kv.2 i hi).1
  simp only [issueAt, hk, decide_eq_true_eq, not_and]
  intro h
  exact absurd h hne

theorem countP_issueAt_zero_of_snd (schema : Schema) (strict : Bool) (k t : String) :
    ∀ kv : String × String, kv.1 ≠ k →
      ((checkEntry schema strict kv.1 kv.2).2).countP (issueAt k t) = 0 := by
  intro kv hne
  refine List.countP_eq_zero.mpr (fun i hi => ?_)
  have hk := (checkEntry_snd_shape schema strict kv.1 kv.2 i hi).1
  simp only [issueAt, hk, decide_eq_true_eq, not_and]
  intro h
  exact absurd h hne

theorem countP_issueAt_missingErrors (schema : Schema) (env : List (String × String))
    (k t : String) (ht : t ≠ "missing") :
    (missingErrors schema env).countP (issueAt k t) = 0 := by
  refine List.countP_eq_zero.mpr (fun i hi => ?_)
  have hm := (missingErrors_shape schema env i hi).1
  simp only [issueAt, hm, decide_eq_true_eq, not_and]
  intro _ h
  exact ht h.symm

/-- C4 — undeclared keys: for every key `k` present (once, as in any
JavaScript object) in the merged mapping with some value `v` but undeclared
in the schema, validation emits exactly one `unknown` issue for `k`,
classified as an error when `strict` is set and as a warning otherwise; and
on the spec's concrete scenario (schema declaring only `NODE_ENV`, mapping
also carrying `DEBUG`) `ok` flips from `true` (non-strict) to `false`
(strict) with that sole issue. -/
theorem unknown_key_classified (env : List (String × String)) (schema : Schema)
    (opts : ValidateOptions) (k v : String)
    (hmem : (k, v) ∈ env)
    (hcount : (env.map Prod.fst).count k = 1)
    (hundecl : lookupKey schema k = none) :
    UnknownKeyClassified env schema opts k
    ∧ (validateEnv scenario3Env scenario3Schema
        { strict := false, failOnWarn := false }).ok = true
    ∧ (validateEnv scenario3Env scenario3Schema
        { strict := true, failOnWarn := false }).ok = false
    ∧ (validateEnv scenario3Env scenario3Schema
        { strict := true, failOnWarn := false }).errors.length = 1 := by
  have herr :
      (validateEnv env schema opts).errors.countP (issueAt k "unknown")
        = (if opts.strict then 1 else 0) := by
    rw [validateEnv_errors_eq, List.countP_append,
      countP_issueAt_missingErrors schema env k "unknown" (by decide),
      flattenMap_countP_of_count_one _ _ k v
        (countP_issueAt_zero_of_fst schema opts.strict k "unknown") env hmem hcount,
      checkEntry_undeclared schema opts.strict k v hundecl]
    cases opts.strict <;> simp [issueAt]
  have hwarn :
      (validateEnv env schema opts).warnings.countP (issueAt k "unknown")
        = (if opts.strict then 0 else 1) := by
    rw [validateEnv_warnings_eq,
      flattenMap_countP_of_count_one _ _ k v
        (countP_issueAt_zero_of_snd schema opts.strict k "unknown") env hmem hcount,
      checkEntry_undeclared schema opts.strict k v hundecl]
    cases opts.strict <;> simp [issueAt]
  refine ⟨⟨?_, herr, hwarn⟩, by decide, by decide, by decide⟩
  rw [List.countP_append, herr, hwarn]
  cases opts.strict <;> simp

/-- Witness for C4 at the spec's concrete scenario 3: `DEBUG` is present once
in the mapping, undeclared in the schema, and the strict run classifies it as
an error. -/
theorem unknown_key_classified_witness :
    (("DEBUG", "true") ∈ scenario3Env
      ∧ (scenario3Env.map Prod.fst).count "DEBUG" = 1
      ∧ lookupKey scenario3Schema "DEBUG" = none)
    ∧ (UnknownKeyClassified scenario3Env scenario3Schema
        { strict := true, failOnWarn := false } "DEBUG"
      ∧ (validateEnv scenario3Env scenario3Schema
          { strict := false, failOnWarn := false }).ok = true
      ∧ (validateEnv scenario3Env scenario3Schema
          { strict := true, failOnWarn := false }).ok = false
      ∧ (validateEnv scenario3Env scenario3Schema
          { strict := true, failOnWarn := false }).errors.length = 1) :=
  ⟨⟨by decide, by decide, by rfl⟩,
    unknown_key_classified scenario3Env scenario3Schema
      { strict := true, failOnWarn := false } "DEBUG" "true"
      (by decide) (by decide) (by rfl)⟩

theorem mem_flattenMap {α β : Type} {f : α → List β} {b : β} :
    ∀ {l : List α}, b ∈ flattenMap f l → ∃ a ∈ l, b ∈ f a := by
  intro l
  induction l with
  | nil => intro h; cases h
  | cons x xs ih =>
      intro h
      rcases List.mem_append.mp h with h1 | h2
      · exact ⟨x, List.mem_cons_self x xs, h1⟩
      · obtain ⟨a, ha, hb⟩ := ih h2
        exact ⟨a, List.mem_cons_of_mem x ha, hb⟩

theorem warnings_countP_missing_zero (env : List (String × String)) (schema : Schema)
    (opts : ValidateOptions) :
    (validateEnv env schema opts).warnings.countP (fun i => i.type = "missing") = 0 := by
  refine List.countP_eq_zero.mpr (fun i hi => ?_)
  rw [validateEnv_warnings_eq] at hi
  obtain ⟨kv, _, hmem⟩ := mem_flattenMap hi
  rcases (checkEntry_snd_shape schema opts.strict kv.1 kv.2 i hmem).2 with h | h <;>
    simp [h]

theorem errors_countP_deprecated_zero (env : List (String × String)) (schema : Schema)
    (opts : ValidateOptions) :
    (validateEnv env schema opts).errors.countP (fun i => i.type = "deprecated") = 0 := by
  refine List.countP_eq_zero.mpr (fun i hi => ?_)
  rw [validateEnv_errors_eq] at hi
  rcases List.mem_append.mp hi with h1 | h2
  · have := (missingErrors_shape schema env i h1).1
    simp [this]
  · obtain ⟨kv, _, hmem⟩ := mem_flattenMap h2
    rcases (checkEntry_fst_shape schema opts.strict kv.1 kv.2 i hmem).2 with h | h | h <;>
      simp [h]

/-- C5, counterexample to the claim as stated: under `strict`, the one
`unknown` issue for the undeclared key `X` is classified as an error, and
`stats.unknown` — computed by filtering the *warnings* list only — is `0`
even though one `unknown` issue was emitted. -/
theorem stats_unknown_strict_counterexample :
    (validateEnv [("X", "1")] { keys := [], source := "json", path := "env.schema.json" }
        { strict := true, failOnWarn := false }).stats.unknown = 0
    ∧ ((validateEnv [("X", "1")] { keys := [], source := "json", path := "env.schema.json" }
          { strict := true, failOnWarn := false }).errors
        ++ (validateEnv [("X", "1")] { keys := [], source := "json", path := "env.schema.json" }
          { strict := true, failOnWarn := false }).warnings).countP
        (fun i => i.type = "unknown") = 1 :=
  ⟨by decide, by decide⟩

/-- C5 as amended — for every run, `stats.checked` is the number of mapping
entries and `stats.missing`/`stats.deprecated` count all issues of their kind
(those kinds only ever land in one list), but `stats.unknown` counts only the
`unknown` issues in the *warnings* list, so it is `0` when strict mode
classifies them as errors. -/
theorem validateEnv_stats_counts (env : List (String × String)) (schema : Schema)
    (opts : ValidateOptions) :
    (validateEnv env schema opts).stats.checked = env.length
    ∧ (validateEnv env schema opts).stats.missing
        = ((validateEnv env schema opts).errors
            ++ (validateEnv env schema opts).warnings).countP (fun i => i.type = "missing")
    ∧ (validateEnv env schema opts).stats.deprecated
        = ((validateEnv env schema opts).errors
            ++ (validateEnv env schema opts).warnings).countP (fun i => i.type = "deprecated")
    ∧ (validateEnv env schema opts).stats.unknown
        = (validateEnv env schema opts).warnings.countP (fun i => i.type = "unknown") := by
  refine ⟨by rw [validateEnv_stats_eq], ?_, ?_, ?_⟩
  · rw [validateEnv_stats_eq, List.countP_append,
      warnings_countP_missing_zero env schema opts, ← List.countP_eq_length_filter]
    simp
  · rw [validateEnv_stats_eq, List.countP_append,
      errors_countP_deprecated_zero env schema opts]
    simp [List.countP_eq_length_filter]
  · rw [validateEnv_stats_eq]
    simp [List.countP_eq_length_filter]

theorem validateEnvValue_empty_required (kd : SchemaKey) (h : kd.required = true) :
    validateEnvValue "" kd = { valid := false, error := some "Required key missing" } := by
  have hemp : "".isEmpty = true := rfl
  unfold validateEnvValue
  rw [h]
  simp [hemp]

theorem checkEntry_required_empty_countP (schema : Schema) (strict : Bool) (k : String)
    (kd : SchemaKey) (hlk : lookupKey schema k = some kd) (hreq : kd.required = true)
    (p : ValidationIssue → Bool)
    (hp1 : p { key := k, type := "type", message := "Required key missing" } = true)
    (hp2 : ∀ i : ValidationIssue, i.type = "pattern" → p i = false) :
    ((checkEntry schema strict k "").1).countP p = 1 := by
  have hval := validateEnvValue_empty_required kd hreq
  cases hpatdef : kd.pattern with
  | none =>
      unfold checkEntry
      rw [hlk]
      simp only
      rw [hval, hpatdef]
      simp [List.countP_cons, hp1]
  | some pp =>
      unfold checkEntry
      rw [hlk]
      simp only
      rw [hval, hpatdef]
      by_cases hemp : pp.isEmpty
      · simp [hemp, List.countP_cons, hp1]
      · by_cases hv : (validatePattern "" pp).valid
        · simp [hemp, hv, List.countP_cons, hp1]
        · simp [hemp, hv, List.countP_cons, List.countP_append, hp1,
            hp2 { key := k, type := "pattern",
                  message := (validatePattern "" pp).error.getD "" } rfl]

theorem flattenMap_fst_countP_missing_zero (env : List (String × String)) (schema : Schema)
    (strict : Bool) (k : String) :
    (flattenMap (fun kv => (checkEntry schema strict kv.1 kv.2).1) env).countP
      (issueAt k "missing") = 0 := by
  refine List.countP_eq_zero.mpr (fun i hi => ?_)
  obtain ⟨kv, _, hm⟩ := mem_flattenMap hi
  rcases (checkEntry_fst_shape schema strict kv.1 kv.2 i hm).2 with h | h | h <;>
    simp [issueAt, h]

theorem flattenMap_snd_countP_missing_zero (env : List (String × String)) (schema : Schema)
    (strict : Bool) (k : String) :
    (flattenMap (fun kv => (checkEntry schema strict kv.1 kv.2).2) env).countP
      (issueAt k "missing") = 0 := by
  refine List.countP_eq_zero.mpr (fun i hi => ?_)
  obtain ⟨kv, _, hm⟩ := mem_flattenMap hi
  rcases (checkEntry_snd_shape schema strict kv.1 kv.2 i hm).2 with h | h <;>
    simp [issueAt, h]

theorem missingErrors_countP_key_in_env (schema : Schema) (env : List (String × String))
    (k : String) (hany : env.any (fun kv => kv.1 = k) = true) (t : String) :
    (missingErrors schema env).countP (issueAt k t) = 0 := by
  refine List.countP_eq_zero.mpr (fun i hi => ?_)
  have hsh := (missingErrors_shape schema env i hi).2
  simp only [issueAt, decide_eq_true_eq, not_and]
  intro hk
  rw [hk] at hsh
  rw [hsh] at hany
  cases hany

/-- C10 — a required key present with the empty string as its value is
reported as a `type` error with message `Required key missing` (the
empty-and-required branch of `validateEnvValue`), not as a `missing` error
(the missing-key loop only fires for keys absent from the mapping), so
`stats.missing` does not count it. -/
theorem required_empty_value_typed (env : List (String × String)) (schema : Schema)
    (opts : ValidateOptions) (k : String) (kd : SchemaKey)
    (hlk : lookupKey schema k = some kd)
    (hreq : kd.required = true)
    (hmem : (k, "") ∈ env)
    (hcount : (env.map Prod.fst).count k = 1) :
    RequiredEmptyTyped env schema opts k := by
  have hany : env.any (fun kv => kv.1 = k) = true :=
    List.any_eq_true.mpr ⟨(k, ""), hmem, by simp⟩
  have hmissfst := flattenMap_fst_countP_missing_zero env schema opts.strict k
  refine ⟨?_, ?_, ?_, ?_⟩
  · rw [validateEnv_errors_eq, List.countP_append]
    have h0 : (missingErrors schema env).countP
        (fun i => issueAt k "type" i && decide (i.message = "Required key missing")) = 0 := by
      refine List.countP_eq_zero.mpr (fun i hi => ?_)
      have := (missingErrors_shape schema env i hi).1
      simp [issueAt, this]
    rw [h0,
      flattenMap_countP_of_count_one _ _ k ""
        (fun kv hne => by
          refine List.countP_eq_zero.mpr (fun i hi => ?_)
          have hk := (checkEntry_fst_shape schema opts.strict kv.1 kv.2 i hi).1
          simp only [issueAt, hk, Bool.and_eq_true, decide_eq_true_eq, not_and]
          intro hc
          exact absurd hc.1 hne)
        env hmem hcount,
      checkEntry_required_empty_countP schema opts.strict k kd hlk hreq _
        (by simp [issueAt]) (fun i hit => by simp [issueAt, hit])]
  · rw [validateEnv_errors_eq, List.countP_append,
      countP_issueAt_missingErrors schema env k "type" (by decide),
      flattenMap_countP_of_count_one _ _ k ""
        (countP_issueAt_zero_of_fst schema opts.strict k "type") env hmem hcount,
      checkEntry_required_empty_countP schema opts.strict k kd hlk hreq _
        (by simp [issueAt]) (fun i hit => by simp [issueAt, hit])]
  · rw [List.countP_append, validateEnv_errors_eq, validateEnv_warnings_eq,
      List.countP_append,
      missingErrors_countP_key_in_env schema env k hany "missing",
      hmissfst, flattenMap_snd_countP_missing_zero env schema opts.strict k]
  · rw [validateEnv_stats_eq]
    simp only [← List.countP_eq_length_filter]
    refine List.countP_congr (fun i hi => ?_)
    simp only [Bool.and_eq_true, decide_eq_true_eq]
    constructor
    · intro hmiss
      refine ⟨hmiss, fun hk => ?_⟩
      rw [validateEnv_errors_eq] at hi
      rcases List.mem_append.mp hi with h1 | h2
      · have hsh := (missingErrors_shape schema env i h1).2
        rw [hk] at hsh
        rw [hsh] at hany
        cases hany
      · obtain ⟨kv, _, hm⟩ := mem_flattenMap h2
        rcases (checkEntry_fst_shape schema opts.strict kv.1 kv.2 i hm).2 with h | h | h <;>
          simp [h] at hmiss
    · exact fun hc => hc.1

/-- Witness for C10: a schema declaring a required string key `API_KEY`
whose value in the mapping is the empty string. -/
theorem required_empty_value_typed_witness :
    (lookupKey requiredEmptySchema "API_KEY" = some requiredKeyDef
      ∧ requiredKeyDef.required = true
      ∧ ("API_KEY", "") ∈ [("API_KEY", "")]
      ∧ ([("API_KEY", "")].map Prod.fst).count "API_KEY" = 1)
    ∧ RequiredEmptyTyped [("API_KEY", "")] requiredEmptySchema
        { strict := false, failOnWarn := false } "API_KEY" :=
  ⟨⟨by rfl, by rfl, by decide, by decide⟩,
    required_empty_value_typed [("API_KEY", "")] requiredEmptySchema
      { strict := false, failOnWarn := false } "API_KEY" requiredKeyDef
      (by rfl) (by rfl) (by decide) (by decide)⟩

/-! ## Association-list lemmas for the `Object.assign` overlay -/

theorem lookupAL_cons (p : String × String) (m : List (String × String)) (k : String) :
    lookupAL (p :: m) k = if p.1 = k then some p.2 else lookupAL m k := by
  unfold lookupAL
  rw [List.find?_cons]
  by_cases h : p.1 = k
  · simp [h]
  · simp [h]

theorem mem_of_lookupAL {m : List (String × String)} {k v : String}
    (h : lookupAL m k = some v) : (k, v) ∈ m := by
  induction m with
  | nil => cases h
  | cons p rest ih =>
      rw [lookupAL_cons] at h
      by_cases hp : p.1 = k
      · rw [if_pos hp] at h
        obtain ⟨p1, p2⟩ := p
        cases h
        simp only at hp
        rw [hp]
        exact List.mem_cons_self _ _
      · rw [if_neg hp] at h
        exact List.mem_cons_of_mem p (ih h)

theorem lookupAL_none_forall {m : List (String × String)} {k : String}
    (h : lookupAL m k = none) : ∀ p ∈ m, p.1 ≠ k := by
  induction m with
  | nil => intro p hp; cases hp
  | cons q rest ih =>
      rw [lookupAL_cons] at h
      by_cases hq : q.1 = k
      · rw [if_pos hq] at h; cases h
      · rw [if_neg hq] at h
        intro p hp
        rcases List.mem_cons.mp hp with rfl | hrest
        · exact hq
        · exact ih h p hrest

theorem lookupAL_map_update (m : List (String × String)) (c w k : String) (hne : k ≠ c) :
    lookupAL (m.map (fun p => if p.1 = c then (p.1, w) else p)) k = lookupAL m k := by
  induction m with
  | nil => rfl
  | cons p rest ih =>
      simp only [List.map_cons]
      by_cases hp : p.1 = c
      · rw [if_pos hp, lookupAL_cons, lookupAL_cons]
        have hpk : ¬(p.1 = k) := fun hh => hne (hh.symm.trans hp)
        simp only [hpk, if_neg, if_false]
        exact ih
      · rw [if_neg hp, lookupAL_cons, lookupAL_cons]
        by_cases hpk : p.1 = k
        · simp [hpk]
        · simp only [hpk, if_false]
          exact ih

theorem lookupAL_map_update_self (m : List (String × String)) (c w : String)
    (hany : m.any (fun p => p.1 = c) = true) :
    lookupAL (m.map (fun p => if p.1 = c then (p.1, w) else p)) c = some w := by
  induction m with
  | nil => cases hany
  | cons p rest ih =>
      simp only [List.map_cons]
      by_cases hp : p.1 = c
      · rw [if_pos hp, lookupAL_cons]
        simp [hp]
      · rw [if_neg hp, lookupAL_cons]
        simp only [hp, if_false]
        refine ih ?_
        simp only [List.any_cons, Bool.or_eq_true] at hany
        rcases hany with h | h
        · exact absurd (by simpa using h) hp
        · exact h

theorem lookupAL_objAssignPair (m : List (String × String)) (kv : String × String)
    (k : String) :
    lookupAL (objAssignPair m kv) k = if k = kv.1 then some kv.2 else lookupAL m k := by
  unfold objAssignPair
  by_cases hany : m.any (fun p => p.1 = kv.1) = true
  · rw [if_pos hany]
    by_cases hk : k = kv.1
    · rw [if_pos hk, hk]
      exact lookupAL_map_update_self m kv.1 kv.2 hany
    · rw [if_neg hk]
      exact lookupAL_map_update m kv.1 kv.2 k hk
  · rw [if_neg hany]
    have hanyf : m.any (fun p => p.1 = kv.1) = false := by
      cases h : m.any (fun p => p.1 = kv.1)
      · rfl
      · exact absurd h hany
    unfold lookupAL
    rw [List.find?_append]
    by_cases hk : k = kv.1
    · rw [if_pos hk]
      have hnone : m.find? (fun p => p.1 = k) = none := by
        refine List.find?_eq_none.mpr (fun p hp => ?_)
        have hnp := List.any_eq_false.mp hanyf p hp
        simp only [decide_eq_true_eq] at hnp ⊢
        rw [hk]
        exact hnp
      rw [hnone]
      have hkvk : decide (kv.1 = k) = true := decide_eq_true hk.symm
      simp [List.find?_cons, hkvk]
    · rw [if_neg hk]
      have hkvk : decide (kv.1 = k) = false := decide_eq_false (fun hc => hk hc.symm)
      have h1 : List.find? (fun p => p.1 = k) [kv] = none := by
        simp [List.find?_cons, hkvk]
      rw [h1]
      cases m.find? (fun p => p.1 = k) <;> simp

theorem lookupAL_objAssign_of_not_mem (s : List (String × String)) (k : String)
    (h : ∀ p ∈ s, p.1 ≠ k) :
    ∀ t : List (String × String), lookupAL (objAssign t s) k = lookupAL t k := by
  induction s with
  | nil => intro t; rfl
  | cons kv rest ih =>
      intro t
      have hstep : objAssign t (kv :: rest) = objAssign (objAssignPair t kv) rest := rfl
      rw [hstep, ih (fun p hp => h p (List.mem_cons_of_mem kv hp)),
        lookupAL_objAssignPair]
      have : ¬(k = kv.1) := fun hc => h kv (List.mem_cons_self kv rest) hc.symm
      rw [if_neg this]

theorem lookupAL_objAssign_of_mem (s : List (String × String)) (k v : String)
    (hnd : (s.map Prod.fst).Nodup) (hm : (k, v) ∈ s) :
    ∀ t : List (String × String), lookupAL (objAssign t s) k = some v := by
  induction s with
  | nil => cases hm
  | cons kv rest ih =>
      intro t
      have hstep : objAssign t (kv :: rest) = objAssign (objAssignPair t kv) rest := rfl
      rw [hstep]
      simp only [List.map_cons, List.nodup_cons] at hnd
      rcases List.mem_cons.mp hm with rfl | hrest
      · have hnot : ∀ p ∈ rest, p.1 ≠ k := by
          intro p hp hc
          exact hnd.1 (hc ▸ List.mem_map.mpr ⟨p, hp, rfl⟩)
        rw [lookupAL_objAssign_of_not_mem rest k hnot, lookupAL_objAssignPair]
        simp
      · exact ih hnd.2 hrest _

theorem parseEnvFiles_merged_two (A B : FsFile)
    (hA : A.«exists» = true) (hB : B.«exists» = true) :
    (parseEnvFiles [A, B]).merged = objAssign (objAssign [] A.content) B.content := by
  simp [parseEnvFiles, hA, hB]

/-- C6 — the merge of an ordered sequence of env files is a per-key
left-to-right overlay: for files `[A, B]` a key present in both yields `B`'s
value, a key present only in `A` keeps `A`'s value, and swapping the file
order changes the merged mapping whenever the two files disagree on a shared
key. -/
theorem merge_overlay (A B : FsFile)
    (hA : A.«exists» = true) (hB : B.«exists» = true)
    (hndA : (A.content.map Prod.fst).Nodup) (hndB : (B.content.map Prod.fst).Nodup) :
    (∀ k va vb, lookupAL A.content k = some va → lookupAL B.content k = some vb →
        lookupAL (parseEnvFiles [A, B]).merged k = some vb)
    ∧ (∀ k va, lookupAL A.content k = some va → lookupAL B.content k = none →
        lookupAL (parseEnvFiles [A, B]).merged k = some va)
    ∧ (∀ k va vb, lookupAL A.content k = some va → lookupAL B.content k = some vb →
        va ≠ vb → (parseEnvFiles [A, B]).merged ≠ (parseEnvFiles [B, A]).merged) := by
  refine ⟨?_, ?_, ?_⟩
  · intro k va vb _ hBk
    rw [parseEnvFiles_merged_two A B hA hB]
    exact lookupAL_objAssign_of_mem B.content k vb hndB (mem_of_lookupAL hBk) _
  · intro k va hAk hBk
    rw [parseEnvFiles_merged_two A B hA hB,
      lookupAL_objAssign_of_not_mem B.content k (lookupAL_none_forall hBk)]
    exact lookupAL_objAssign_of_mem A.content k va hndA (mem_of_lookupAL hAk) _
  · intro k va vb hAk hBk hne heq
    have h1 : lookupAL (parseEnvFiles [A, B]).merged k = some vb := by
      rw [parseEnvFiles_merged_two A B hA hB]
      exact lookupAL_objAssign_of_mem B.content k vb hndB (mem_of_lookupAL hBk) _
    have h2 : lookupAL (parseEnvFiles [B, A]).merged k = some va := by
      rw [parseEnvFiles_merged_two B A hB hA]
      exact lookupAL_objAssign_of_mem A.content k va hndA (mem_of_lookupAL hAk) _
    rw [heq, h2] at h1
    exact hne (by injection h1)

/-- Witness for C6 on the repository's own merge test files: the shared key
`PORT` takes the later file's value `4000`, the `A`-only key `NODE_ENV`
survives, and swapping the file order changes the merged mapping. -/
theorem merge_overlay_witness :
    (envFileA.«exists» = true ∧ envFileB.«exists» = true
      ∧ (envFileA.content.map Prod.fst).Nodup ∧ (envFileB.content.map Prod.fst).Nodup
      ∧ lookupAL envFileA.content "PORT" = some "3000"
      ∧ lookupAL envFileB.content "PORT" = some "4000"
      ∧ lookupAL envFileA.content "NODE_ENV" = some "development"
      ∧ lookupAL envFileB.content "NODE_ENV" = none)
    ∧ lookupAL (parseEnvFiles [envFileA, envFileB]).merged "PORT" = some "4000"
    ∧ lookupAL (parseEnvFiles [envFileA, envFileB]).merged "NODE_ENV" = some "development"
    ∧ (parseEnvFiles [envFileA, envFileB]).merged
        ≠ (parseEnvFiles [envFileB, envFileA]).merged :=
  ⟨⟨rfl, rfl, by decide, by decide, rfl, rfl, rfl, rfl⟩,
    (merge_overlay envFileA envFileB rfl rfl (by decide) (by decide)).1
      "PORT" "3000" "4000" rfl rfl,
    (merge_overlay envFileA envFileB rfl rfl (by decide) (by decide)).2.1
      "NODE_ENV" "development" rfl rfl,
    (merge_overlay envFileA envFileB rfl rfl (by decide) (by decide)).2.2
      "PORT" "3000" "4000" rfl rfl (by decide)⟩

/-! ## Pattern checking -/

/-- C7 — an invalid regex pattern is reported, not thrown: for every value
and every pattern the host `RegExp` constructor rejects, `validatePattern`
returns an Invalid result (it is a total function into
`ValidationOutcome`) whose configuration-error message differs from the
value-mismatch message for the same pattern, and for a key declared with
that pattern the orchestrator's per-key step emits a `pattern` issue scoped
to that key carrying the configuration-error message. -/
theorem invalid_pattern_reported (value pattern : String)
    (hcompile : compileRegex pattern = none)
    (schema : Schema) (strict : Bool) (k : String) (kd : SchemaKey)
    (hlk : lookupKey schema k = some kd)
    (hpat : kd.pattern = some pattern) (hne : pattern ≠ "") :
    validatePattern value pattern
      = { valid := false, error := some ("Invalid regex pattern: " ++ pattern) }
    ∧ ("Invalid regex pattern: " ++ pattern)
        ≠ ("Value does not match pattern: " ++ pattern)
    ∧ { key := k, type := "pattern",
        message := "Invalid regex pattern: " ++ pattern,
        replacedBy := none } ∈ (checkEntry schema strict k value).1 := by
  have h1 : validatePattern value pattern
      = { valid := false, error := some ("Invalid regex pattern: " ++ pattern) } := by
    unfold validatePattern
    rw [hcompile]
  refine ⟨h1, ?_, ?_⟩
  · intro heq
    have hlen := congrArg String.length heq
    rw [String.length_append, String.length_append] at hlen
    have h23 : ("Invalid regex pattern: ").length = 23 := rfl
    have h30 : ("Value does not match pattern: ").length = 30 := rfl
    rw [h23, h30] at hlen
    omega
  · have hempf : pattern.isEmpty = false := by
      cases hie : pattern.isEmpty
      · rfl
      · exact absurd ((String.isEmpty_iff pattern).mp hie) hne
    unfold checkEntry
    rw [hlk]
    simp only
    rw [hpat]
    refine List.mem_append_right _ ?_
    simp [hempf, h1]

/-- Witness for C7: the pattern `(` is rejected by the model compiler, and a
key declared with it receives the scoped configuration-error issue. -/
theorem invalid_pattern_reported_witness :
    (compileRegex "(" = none
      ∧ lookupKey invalidPatternSchema "API_KEY" = some invalidPatternKeyDef
      ∧ invalidPatternKeyDef.pattern = some "(" ∧ "(" ≠ "")
    ∧ (validatePattern "abc" "("
        = { valid := false, error := some ("Invalid regex pattern: " ++ "(") }
      ∧ ("Invalid regex pattern: " ++ "(") ≠ ("Value does not match pattern: " ++ "(")
      ∧ { key := "API_KEY", type := "pattern",
          message := "Invalid regex pattern: " ++ "(",
          replacedBy := none }
          ∈ (checkEntry invalidPatternSchema false "API_KEY" "abc").1) :=
  ⟨⟨by rfl, by rfl, by rfl, by decide⟩,
    invalid_pattern_reported "abc" "(" (by rfl) invalidPatternSchema false
      "API_KEY" invalidPatternKeyDef (by rfl) (by rfl) (by decide)⟩

/-! ## Empty optional values -/

/-- C8, counterexample to the claim as stated: `OPT_KEY` is optional
(`required = false`), present with the empty string, and declares the
pattern `a` — the type validator accepts it, but the orchestrator still runs
the separate pattern check on the empty value and emits a `pattern` issue
for that key. -/
theorem optional_empty_pattern_counterexample :
    optPatternKeyDef.required = false
    ∧ (validateEnv [("OPT_KEY", "")] optPatternSchema
        { strict := false, failOnWarn := false }).errors
        = [{ key := "OPT_KEY", type := "pattern",
             message := "Value does not match pattern: a" }]
    ∧ (validateEnv [("OPT_KEY", "")] optPatternSchema
        { strict := false, failOnWarn := false }).ok = false :=
  ⟨rfl, by decide, by decide⟩

/-- C8 as amended — an empty (or absent) value for a non-required key passes
the type validator with no type or bounds issue: `validateEnvValue` returns
Valid immediately and the orchestrator's per-key step emits no `type`-kind
issue for that key; a declared `pattern`, however, is still checked
separately by the orchestrator against the empty raw value and may emit a
`pattern` issue (see the counterexample). -/
theorem optional_empty_no_type_issue (kd : SchemaKey) (h : kd.required = false) :
    validateEnvValue "" kd = { valid := true, error := none }
    ∧ ∀ (schema : Schema) (strict : Bool) (k : String), lookupKey schema k = some kd →
        ((checkEntry schema strict k "").1).countP (fun i => i.type = "type") = 0 := by
  have hemp : "".isEmpty = true := rfl
  have hval : validateEnvValue "" kd = { valid := true, error := none } := by
    unfold validateEnvValue
    rw [h]
    simp [hemp]
  refine ⟨hval, ?_⟩
  intro schema strict k hlk
  cases hpatdef : kd.pattern with
  | none =>
      unfold checkEntry
      rw [hlk]
      simp only
      rw [hval, hpatdef]
      simp
  | some pp =>
      unfold checkEntry
      rw [hlk]
      simp only
      rw [hval, hpatdef]
      by_cases hppemp : pp.isEmpty
      · simp [hppemp]
      · by_cases hv : (validatePattern "" pp).valid
        · simp [hppemp, hv]
        · simp [hppemp, hv, List.countP_cons]

/-- Witness for C8 (amended): the optional boolean `DEBUG`, empty, passes
with no `type` issue. -/
theorem optional_empty_no_type_issue_witness :
    (optBoolKeyDef.required = false
      ∧ lookupKey optBoolSchema "DEBUG" = some optBoolKeyDef)
    ∧ (validateEnvValue "" optBoolKeyDef = { valid := true, error := none }
      ∧ ((checkEntry optBoolSchema false "DEBUG" "").1).countP
          (fun i => i.type = "type") = 0) :=
  ⟨⟨by rfl, by rfl⟩,
    ⟨(optional_empty_no_type_issue optBoolKeyDef (by rfl)).1,
      (optional_empty_no_type_issue optBoolKeyDef (by rfl)).2
        optBoolSchema false "DEBUG" (by rfl)⟩⟩

/-! ## Secret redaction in the JSON view -/

/-- C9 — in the derived JSON view, a key whose schema definition is `secret`
with a string value is replaced by the literal `"<redacted>"` (the whole
value, not a partial mask): `redactSecrets` on an object maps its fields
through the redaction, and the secret key's entry becomes exactly
`(k, "<redacted>")`. -/
theorem redact_secret_json (schema : Schema) (fields : List (String × JValue))
    (k v : String) (kd : SchemaKey)
    (hlk : lookupKey schema k = some kd) (hsec : kd.secret = true)
    (hmem : (k, JValue.str v) ∈ fields) :
    redactSecrets (JValue.obj fields) schema
      = JValue.obj (redactSecretsFields fields schema)
    ∧ (k, JValue.str "<redacted>") ∈ redactSecretsFields fields schema := by
  refine ⟨rfl, ?_⟩
  have hval : redactFieldValue k (JValue.str v) schema = JValue.str "<redacted>" := by
    unfold redactFieldValue
    rw [hlk]
    simp [hsec]
  induction fields with
  | nil => cases hmem
  | cons p rest ih =>
      obtain ⟨pk, pv⟩ := p
      simp only [redactSecretsFields]
      rcases List.mem_cons.mp hmem with heq | htail
      · injection heq with h1 h2
        subst h1
        subst h2
        exact List.mem_cons.mpr (Or.inl (by rw [hval]))
      · exact List.mem_cons_of_mem _ (ih htail)

/-- Witness for C9: `SECRET_TOKEN` (declared `secret`) with value `hunter2`
becomes the literal `<redacted>` in the redacted object. -/
theorem redact_secret_json_witness :
    (lookupKey secretSchema "SECRET_TOKEN" = some secretTokenKeyDef
      ∧ secretTokenKeyDef.secret = true
      ∧ ("SECRET_TOKEN", JValue.str "hunter2")
          ∈ [("SECRET_TOKEN", JValue.str "hunter2"), ("PORT", JValue.str "3000")])
    ∧ (redactSecrets
          (JValue.obj [("SECRET_TOKEN", JValue.str "hunter2"),
            ("PORT", JValue.str "3000")]) secretSchema
        = JValue.obj (redactSecretsFields
            [("SECRET_TOKEN", JValue.str "hunter2"), ("PORT", JValue.str "3000")]
            secretSchema)
      ∧ ("SECRET_TOKEN", JValue.str "<redacted>")
          ∈ redactSecretsFields
              [("SECRET_TOKEN", JValue.str "hunter2"), ("PORT", JValue.str "3000")]
              secretSchema) :=
  ⟨⟨by rfl, by rfl, List.mem_cons_self _ _⟩,
    redact_secret_json secretSchema
      [("SECRET_TOKEN", JValue.str "hunter2"), ("PORT", JValue.str "3000")]
      "SECRET_TOKEN" "hunter2" secretTokenKeyDef (by rfl) (by rfl)
      (List.mem_cons_self _ _)⟩

/-! ## The two schema front-ends -/

/-- C1 — evaluation of `parseZodType` at the wrapper nodes of the
repository's own test and templates: on `z.boolean().optional()` the
normalized key still has `required = true`, and on
`z.number().int().min(1).max(65535).default(3000)` the captured default is
absent — the early `return parseZodType(keyName, innerType)` discards the
local assignments `required = false` and `key.default = …`.  Consequently
the repository's own test `should handle optional keys` (mapping without
`DEBUG`, expecting `ok = true` and no errors) fails: the run reports a
`missing` error for `DEBUG`. -/
theorem zod_wrapper_discards_flags :
    (parseZodType "DEBUG" zodOptionalBoolNode).required = true
    ∧ (parseZodType "PORT" zodDefaultPortNode).required = true
    ∧ (parseZodType "PORT" zodDefaultPortNode).default = none
    ∧ (parseZodType "PORT" zodDefaultPortNode).type = "port"
    ∧ (validateEnv [("NODE_ENV", "development")] zodTestSchema
        { strict := false, failOnWarn := false }).ok = false
    ∧ (validateEnv [("NODE_ENV", "development")] zodTestSchema
        { strict := false, failOnWarn := false }).errors
        = [{ key := "DEBUG", type := "missing", message := "Required key missing" }] :=
  ⟨rfl, rfl, rfl, rfl, by decide, by decide⟩

/-- C2 — evaluation of `parseJsonKey` at the repository's own `FEATURE_X`
template entry, which marks optionality as `"required": false` with no
`optional` flag: the normalizer computes `required = !keyDef.optional` and
never reads the entry's `required` field, so the normalized key is
`required = true`. -/
theorem json_required_flag_ignored :
    featureXJsonEntry.required = some false
    ∧ featureXJsonEntry.optional = none
    ∧ (parseJsonKey "FEATURE_X" featureXJsonEntry).required = true :=
  ⟨rfl, rfl, rfl⟩

end FixupEnv
